import Mathlib

/-!
Verification development for the tm-zora-manager repository.

The repository holds two sequential pipelines that republish externally
sourced content as Zora "content coins":

* `auto-post-daily.ts` — Twitter image pipeline (thread detection, AI text
  cleaning with a deterministic regex fallback, dedup ledger capped at 1000).
* `youtube-shorts-zora.ts` (an unnamed source file) — YouTube Shorts video
  pipeline (yt-dlp download with an ordered list of format strategies,
  dedup ledger capped at 100, file cleanup around the minting hand-off).

Strings are modelled as `List Char` where character-level regex behaviour
matters (the deterministic cleanup), and as `String` elsewhere.  External
collaborators (Twitter/YouTube APIs, OpenAI, yt-dlp, the Zora SDK, the
filesystem) are modelled as explicit oracle arguments: an `Except` value or
a function producing one stands for the awaited result of the corresponding
external call, and a `Bool` flag stands for success of a filesystem write.
-/

namespace TmZora

set_option maxRecDepth 16000

/-! ## Character classes (JS regex `\w` and `\s`, ASCII range) -/

/-- JS regex word character `\w` = `[A-Za-z0-9_]`. -/
def isWordChar (c : Char) : Bool :=
  c.isAlphanum || c == '_'

/-- JS regex whitespace `\s` restricted to the ASCII range
(space, tab, newline, carriage return, vertical tab, form feed). -/
def isWsChar (c : Char) : Bool :=
  c == ' ' || c == '\t' || c == '\n' || c == '\r' ||
  c == Char.ofNat 11 || c == Char.ofNat 12

/-- The literal part of the tracking-link pattern `https://t.co/` (the
pattern `/https:\/\/t\.co\/\w+/` is this literal followed by one or more
word characters). -/
def tcoLit : List Char := "https://t.co/".toList

/-- Strips a literal from the front of a character list, returning the
remainder on success. -/
def dropLit : List Char → List Char → Option (List Char)
  | [], s => some s
  | _, [] => none
  | a :: as, b :: bs => if a = b then dropLit as bs else none

/-- Attempts to match the regex `https:\/\/t\.co\/\w+` at the head of the
list; on a match returns the remainder after the (greedy, maximal) match. -/
def matchTco (s : List Char) : Option (List Char) :=
  match dropLit tcoLit s with
  | none => none
  | some r =>
    match r with
    | [] => none
    | c :: _ => if isWordChar c then some (r.dropWhile isWordChar) else none

/-- Fuel-driven scan implementing the JS global replace
`.replace(/https:\/\/t\.co\/\w+/g, '')`: left-to-right, each
non-overlapping match is deleted, scanning resumes after the match
(replaced regions are not re-scanned).  Fuel at least the length of the
input is always sufficient since every step consumes at least one
character. -/
def removeTcoAux : Nat → List Char → List Char
  | 0, s => s
  | _ + 1, [] => []
  | n + 1, c :: cs =>
    match matchTco (c :: cs) with
    | some rest => removeTcoAux n rest
    | none => c :: removeTcoAux n cs

/-- First replace of `cleanTextBasic` (auto-post-daily.ts line 172):
remove every `https://t.co/<word chars>` occurrence. -/
def removeTco (s : List Char) : List Char :=
  removeTcoAux s.length s

/-- Fuel-driven scan implementing `.replace(/\s+/g, ' ')`: every maximal
run of whitespace collapses to a single space. -/
def collapseWsAux : Nat → List Char → List Char
  | 0, s => s
  | _ + 1, [] => []
  | n + 1, c :: cs =>
    if isWsChar c then ' ' :: collapseWsAux n (cs.dropWhile isWsChar)
    else c :: collapseWsAux n cs

/-- Second replace of `cleanTextBasic` (auto-post-daily.ts line 173):
collapse whitespace runs to a single space. -/
def collapseWs (s : List Char) : List Char :=
  collapseWsAux s.length s

/-- JS `String.prototype.trim`: drop leading and trailing whitespace. -/
def trimWs (s : List Char) : List Char :=
  ((s.dropWhile isWsChar).reverse.dropWhile isWsChar).reverse

/-- `cleanTextBasic` (auto-post-daily.ts lines 170-175): the deterministic
regex fallback — remove t.co links, normalize whitespace, trim. -/
def cleanTextBasic (text : List Char) : List Char :=
  trimWs (collapseWs (removeTco text))

/-- Decides whether the list contains a substring matching the tracking-link
pattern `https:\/\/t\.co\/\w+`. -/
def containsTco : List Char → Bool
  | [] => false
  | c :: cs => (matchTco (c :: cs)).isSome || containsTco cs

/-- `cleanAndOptimizeContent` (auto-post-daily.ts lines 133-167), with the
awaited OpenAI call replaced by its result: `Except.error ()` models the
call throwing (or timing out), `Except.ok out` models a response whose
`output_text` is `out`.  The source returns `response.output_text || content`
on success (so a falsy — empty — `output_text` yields the raw input), and
`cleanTextBasic content` from the `catch` block. -/
def cleanAndOptimizeContent (svc : Except Unit (List Char)) (content : List Char) : List Char :=
  match svc with
  | .ok out => if out = [] then content else out
  | .error _ => cleanTextBasic content

/-! ## Deduplication store -/

/-- `PostedTweetRecord` (auto-post-daily.ts lines 241-246). -/
structure PostedTweetRecord where
  tweetId : String
  coinName : String
  zoraTransaction : String
  postedAt : String
deriving DecidableEq, Repr

/-- `PostedVideoRecord` (youtube-shorts-zora.ts lines 51-56). -/
structure PostedVideoRecord where
  videoId : String
  coinName : String
  zoraTransaction : String
  postedAt : String
deriving DecidableEq, Repr

/-- Common shape of both save functions: push the record, then keep only
the last `K` entries (JS `records.slice(-K)` applied when the length
exceeds `K`). -/
def saveCapped (K : Nat) (records : List α) (record : α) : List α :=
  let rs := records ++ [record]
  if rs.length > K then rs.drop (rs.length - K) else rs

/-- `savePostedTweet` (auto-post-daily.ts lines 259-287), restricted to its
pure list transformation: push the new record and keep only the last 1000
(`records.slice(-1000)`).  The surrounding file read/write and its
error-swallowing `catch` are modelled at the run level. -/
def savePostedTweet (records : List PostedTweetRecord) (record : PostedTweetRecord) :
    List PostedTweetRecord :=
  let rs := records ++ [record]
  if rs.length > 1000 then rs.drop (rs.length - 1000) else rs

/-- `savePostedVideo` (youtube-shorts-zora.ts lines 504-532), pure list
transformation: push and keep only the last 100 (`records.slice(-100)`). -/
def savePostedVideo (records : List PostedVideoRecord) (record : PostedVideoRecord) :
    List PostedVideoRecord :=
  let rs := records ++ [record]
  if rs.length > 100 then rs.drop (rs.length - 100) else rs

/-! ## Twitter data model and thread reconstruction -/

/-- A `referenced_tweets` entry of the Twitter API (`{type, id}`). -/
structure RefTweet where
  type : String
  id : String
deriving DecidableEq, Repr

/-- `TwitterPost` (auto-post-daily.ts lines 43-61).  `created_at` is an ISO
date string in the source, consumed only through `Date.getTime`; it is
modelled directly as the millisecond timestamp.  `attachments` collapses the
source's `attachments?.media_keys` optional chain: `none` models a missing
`attachments` object or missing `media_keys` field.  The `public_metrics`
block is only logged, never branched on, and is omitted. -/
structure TwitterPost where
  id : String
  text : String
  created_at : Nat
  conversation_id : String
  referenced_tweets : List RefTweet
  attachments : Option (List String)
deriving DecidableEq, Repr

/-- Does the tweet carry a `replied_to` reference?  (The `some` call inside
`isPartOfThread` / `findFirstTweet`.) -/
def hasRepliedTo (t : TwitterPost) : Bool :=
  t.referenced_tweets.any (fun r => r.type == "replied_to")

/-- `isPartOfThread` (auto-post-daily.ts lines 71-79): a `replied_to`
reference, or a conversation id differing from the tweet's own id. -/
def isPartOfThread (t : TwitterPost) : Bool :=
  hasRepliedTo t || t.conversation_id != t.id

/-- `getThreadFromTimeline` (auto-post-daily.ts lines 82-84): filter the
fetched window to the tweets sharing the conversation id. -/
def getThreadFromTimeline (conversationId : String) (timelineData : List TwitterPost) :
    List TwitterPost :=
  timelineData.filter (fun t => t.conversation_id == conversationId)

/-- `findFirstTweet` (auto-post-daily.ts lines 86-90): first tweet of the
array with no `replied_to` reference. -/
def findFirstTweet (tweets : List TwitterPost) : Option TwitterPost :=
  tweets.find? (fun t => !hasRepliedTo t)

/-- `sortThreadChronologically` (auto-post-daily.ts lines 92-94): sort
ascending by `created_at` timestamp.  JS `Array.sort` is stable and sorts
the array in place; the in-place mutation matters in `processTwitterContent`,
where `findFirstTweet(threadTweets)` runs after the sort and therefore sees
the sorted array. -/
def sortThreadChronologically (tweets : List TwitterPost) : List TwitterPost :=
  tweets.mergeSort (fun a b => a.created_at ≤ b.created_at)

/-- The `firstTweetId` computation of `processTwitterContent`
(auto-post-daily.ts lines 177-236), the id flow only (the `content` field
goes through AI calls that absorb their own failures and never abort this
function):

* not a thread member — the tweet's own id;
* thread filter yields at most one element — the tweet's own id;
* otherwise `findFirstTweet(threadTweets)?.id || tweet.conversation_id`,
  where `threadTweets` has been sorted in place (JS `||` also sends an
  empty-string id to the fallback). -/
def computeFirstTweetId (tweet : TwitterPost) (timelineData : List TwitterPost) : String :=
  if !isPartOfThread tweet then tweet.id
  else
    let threadTweets := getThreadFromTimeline tweet.conversation_id timelineData
    if threadTweets.length ≤ 1 then tweet.id
    else
      match findFirstTweet (sortThreadChronologically threadTweets) with
      | some ft => if ft.id = "" then tweet.conversation_id else ft.id
      | none => tweet.conversation_id

/-! ## Twitter image-post selection -/

/-- `TwitterMedia` (auto-post-daily.ts lines 63-68); `preview_image_url` is
never read and is omitted. -/
structure TwitterMedia where
  media_key : String
  type : String
  url : Option String
deriving DecidableEq, Repr

/-- The reply-to-other-user filter (auto-post-daily.ts lines 338-345):
skip when the text starts with `@` and `/^@(\w+)/` captures a handle
different from `tokenmetricsinc` (if no word character follows the `@`,
the regex does not match and the tweet is kept). -/
def replyTargetOther (text : String) : Bool :=
  match text.toList with
  | '@' :: rest =>
    let handle := rest.takeWhile isWordChar
    !handle.isEmpty && handle != "tokenmetricsinc".toList
  | _ => false

/-- JS `String.prototype.startsWith`, computed over the character list
(the core library's `String.startsWith` does not evaluate under kernel
reduction). -/
def strStartsWith (pre s : String) : Bool :=
  (dropLit pre.toList s.toList).isSome

/-- The retweet filter (auto-post-daily.ts lines 348-349). -/
def isRetweet (t : TwitterPost) : Bool :=
  strStartsWith "RT @" t.text || t.referenced_tweets.any (fun r => r.type == "retweeted")

/-- The quote-tweet filter (auto-post-daily.ts line 355). -/
def isQuoteTweet (t : TwitterPost) : Bool :=
  t.referenced_tweets.any (fun r => r.type == "quoted")

/-- The selection loop of `getLatestImagePost` (auto-post-daily.ts lines
328-398): walk the fetched timeline in order; skip already-posted ids,
replies to other users, retweets, quote tweets, tweets without media keys,
tweets whose media contains a video or animated gif, and tweets whose first
photo medium lacks a (non-empty) url; return the first survivor with its
image url.  `none` models the `No valid image posts found` throw after the
loop. -/
def selectImagePost (alreadyPosted : List String) (mediaData : List TwitterMedia) :
    List TwitterPost → Option (TwitterPost × String)
  | [] => none
  | t :: ts =>
    if t.id ∈ alreadyPosted then selectImagePost alreadyPosted mediaData ts
    else if replyTargetOther t.text then selectImagePost alreadyPosted mediaData ts
    else if isRetweet t then selectImagePost alreadyPosted mediaData ts
    else if isQuoteTweet t then selectImagePost alreadyPosted mediaData ts
    else
      match t.attachments with
      | none => selectImagePost alreadyPosted mediaData ts
      | some keys =>
        let tweetMedia := mediaData.filter (fun m => m.media_key ∈ keys)
        if tweetMedia.any (fun m => m.type == "video" || m.type == "animated_gif") then
          selectImagePost alreadyPosted mediaData ts
        else
          match tweetMedia.find? (fun m => m.type == "photo") with
          | none => selectImagePost alreadyPosted mediaData ts
          | some m =>
            match m.url with
            | none => selectImagePost alreadyPosted mediaData ts
            | some u =>
              if u = "" then selectImagePost alreadyPosted mediaData ts
              else some (t, u)

/-! ## YouTube video pipeline -/

/-- `YouTubeVideo` (youtube-shorts-zora.ts lines 41-49). -/
structure YouTubeVideo where
  id : String
  title : String
  description : String
  publishedAt : String
  thumbnailUrl : String
  channelTitle : String
deriving DecidableEq, Repr

/-- The pair of paths resolved by `tryDownloadWithFormat`. -/
structure VideoPaths where
  videoPath : String
  thumbnailPath : String
deriving DecidableEq, Repr

/-- `formatStrategies` (youtube-shorts-zora.ts lines 208-219), in declared
order. -/
def formatStrategies : List String :=
  ["232+233-9/231+233-9/230+233-9",
   "232+233/231+233/230+233",
   "best[height<=720]",
   "best[ext=mp4]",
   "best"]

/-- The strategy loop of `downloadShortVideo` (youtube-shorts-zora.ts lines
221-239), with `tryDownloadWithFormat` — the yt-dlp spawn plus artifact
verification and directory-scan recovery — abstracted as the oracle `dl`
mapping a format string to its outcome (`Except.error` covers a non-zero
exit, missing artifacts, and a process spawn error alike).  Returns the
overall outcome together with the list of format strategies for which the
downloader was actually invoked, in invocation order.  On the last
strategy's failure that strategy's own error is rethrown; the
`All format strategies failed` throw after the loop is reachable only for
an empty strategy list. -/
def runFormatStrategies (dl : String → Except String VideoPaths) :
    List String → Except String VideoPaths × List String
  | [] => (.error "All format strategies failed", [])
  | f :: fs =>
    match dl f with
    | .ok r => (.ok r, [f])
    | .error e =>
      match fs with
      | [] => (.error e, [f])
      | _ :: _ =>
        let res := runFormatStrategies dl fs
        (res.1, f :: res.2)

/-- `downloadShortVideo` (youtube-shorts-zora.ts lines 200-240): run the
five format strategies in order against the downloader oracle. -/
def downloadShortVideo (dl : String → Except String VideoPaths) :
    Except String VideoPaths × List String :=
  runFormatStrategies dl formatStrategies

/-- `createZoraCoinWithVideo` (youtube-shorts-zora.ts lines 346-491),
reduced to its outcome and file-cleanup behaviour.  The function body
before the `try` (line 371) reads the environment, derives the account via
`privateKeyToAccount`, and constructs the viem clients; any throw there —
e.g. a malformed private key — is modelled by `setupOk = false` and happens
before the `try`/`finally`, so no cleanup runs.  Once the `try` block is
entered, `mintResult` models the awaited result of the uploads plus
`createCoin` (the AI caption call inside absorbs its own failures), and the
`finally` block attempts `fs.unlink` on both the video and the thumbnail on
every exit path of the block.  Returns the outcome together with the list
of files whose deletion was attempted. -/
def createZoraCoinWithVideo (setupOk : Bool) (mintResult : Except String String)
    (videoPath thumbnailPath : String) : Except String String × List String :=
  if setupOk then (mintResult, [videoPath, thumbnailPath])
  else (.error "setup failure before try block", [])

/-- Observable outcome of one run of the YouTube pipeline's `main`. -/
structure VideoRunResult where
  exitCode : Nat
  ledger : List PostedVideoRecord
  downloadsTried : List String
  mintAttempted : Bool
  filesDeleted : List String
deriving DecidableEq, Repr

/-- `main` of youtube-shorts-zora.ts (lines 534-634) as a function of the
persisted ledger and the external-call outcomes.

* `specificVideoId` — `process.argv[2]`: `some` is targeted mode, `none`
  is latest mode.
* The dedup set is loaded only in latest mode (lines 544-550), so the
  already-posted check inside `getLatestShorts` (lines 172-175) can only
  fire there; in targeted mode the line-559 check compares against the
  empty set and never aborts.
* `fetchOk = false` models the YouTube fetch itself throwing.
* A failure anywhere lands in the outer `catch`, which appends to the run
  log and calls `process.exit(1)`; success falls through with exit code 0.
* The dedup save (lines 590-601) runs only in latest mode, and only its
  pure effect is applied when `writeOk` holds — `savePostedVideo` swallows
  every read/write error (lines 528-531), so `writeOk = false` leaves the
  persisted ledger unchanged without failing the run. -/
def runVideoMain (specificVideoId : Option String) (storedLedger : List PostedVideoRecord)
    (fetched : YouTubeVideo) (fetchOk : Bool) (dl : String → Except String VideoPaths)
    (setupOk : Bool) (mintResult : Except String String) (writeOk : Bool)
    (postedAt : String) : VideoRunResult :=
  let alreadyPosted : List String :=
    if specificVideoId.isNone then storedLedger.map (fun r => r.videoId) else []
  if !fetchOk then ⟨1, storedLedger, [], false, []⟩
  else if specificVideoId.isNone ∧ fetched.id ∈ alreadyPosted then
    ⟨1, storedLedger, [], false, []⟩
  else
    match downloadShortVideo dl with
    | (.error _, tried) => ⟨1, storedLedger, tried, false, []⟩
    | (.ok paths, tried) =>
      match createZoraCoinWithVideo setupOk mintResult paths.videoPath paths.thumbnailPath with
      | (.error _, deleted) => ⟨1, storedLedger, tried, true, deleted⟩
      | (.ok tx, deleted) =>
        match specificVideoId with
        | some _ => ⟨0, storedLedger, tried, true, deleted⟩
        | none =>
          let ledger :=
            if writeOk then
              savePostedVideo storedLedger ⟨fetched.id, fetched.title, tx, postedAt⟩
            else storedLedger
          ⟨0, ledger, tried, true, deleted⟩

/-- Observable outcome of one run of the Twitter pipeline's `main`. -/
structure TweetRunResult where
  exitCode : Nat
  ledger : List PostedTweetRecord
  mintAttempted : Bool
deriving DecidableEq, Repr

/-- JS `s.slice(-6)`: the last six characters (the whole string when
shorter). -/
def lastSix (s : String) : String :=
  ⟨s.toList.drop (s.toList.length - 6)⟩

/-- `main` of auto-post-daily.ts (lines 500-588) as a function of the
persisted ledger and the external-call outcomes.

* The dedup set is always loaded; `selectImagePost` models the candidate
  loop of `getLatestImagePost`, whose failure (`none`) throws before any
  minting.
* `processTwitterContent` never throws (all its error paths are caught
  internally and return), so it cannot abort the run; its AI-dependent
  output does not affect the observables modelled here.
* `mintResult` models the awaited `createZoraCoin` (any throw inside it,
  including its setup lines before the `try`, propagates to the outer
  `catch`, which logs and calls `process.exit(1)`).
* On success `savePostedTweet` runs; it swallows persistence errors
  (lines 283-287), modelled by `writeOk`. -/
def runTweetMain (storedLedger : List PostedTweetRecord) (fetchOk : Bool)
    (timelineData : List TwitterPost) (mediaData : List TwitterMedia)
    (mintResult : Except String String) (writeOk : Bool) (postedAt : String) :
    TweetRunResult :=
  let alreadyPosted := storedLedger.map (fun r => r.tweetId)
  if !fetchOk then ⟨1, storedLedger, false⟩
  else
    match selectImagePost alreadyPosted mediaData timelineData with
    | none => ⟨1, storedLedger, false⟩
    | some (post, _imageUrl) =>
      match mintResult with
      | .error _ => ⟨1, storedLedger, true⟩
      | .ok tx =>
        let coinName := "tokenmetrics#" ++ lastSix post.id
        let ledger :=
          if writeOk then savePostedTweet storedLedger ⟨post.id, coinName, tx, postedAt⟩
          else storedLedger
        ⟨0, ledger, true⟩

/-! ## Concrete test fixtures -/

/-- A sample fetched video. -/
def sampleVideo : YouTubeVideo := ⟨"vid1", "Title", "Desc", "2024-01-01", "thumb", "TM"⟩

/-- Downloader oracle: every format strategy succeeds. -/
def dlAlwaysOk : String → Except String VideoPaths := fun _ => .ok ⟨"v.mp4", "t.jpg"⟩

/-- Downloader oracle: the first two format strategies fail, the third
succeeds. -/
def dlThirdOk : String → Except String VideoPaths := fun f =>
  if f = "best[height<=720]" then .ok ⟨"v.mp4", "t.jpg"⟩ else .error "fail"

/-- Downloader oracle: every format strategy fails. -/
def dlFail : String → Except String VideoPaths := fun _ => .error "boom"

/-- A thread root: no `replied_to` reference, conversation id equal to its
own id. -/
def rootTweet : TwitterPost := ⟨"C", "root text", 1, "C", [], none⟩

/-- A mid-thread reply in conversation `C`. -/
def midTweet : TwitterPost := ⟨"M", "mid text", 2, "C", [⟨"replied_to", "C"⟩], none⟩

/-- The last reply of the thread in conversation `C`. -/
def lastTweet : TwitterPost := ⟨"L", "last text", 3, "C", [⟨"replied_to", "M"⟩], none⟩

/-- A fetch window holding the whole thread, newest first. -/
def threadWindow : List TwitterPost := [lastTweet, midTweet, rootTweet]

/-- A fetch window where the true root lies outside the window. -/
def partialWindow : List TwitterPost := [lastTweet, midTweet]

/-- A plain single tweet with one photo attachment. -/
def photoTweet : TwitterPost := ⟨"tw1", "nice chart", 5, "tw1", [], some ["mk1"]⟩

/-- Media data carrying the photo for `photoTweet`. -/
def photoMedia : List TwitterMedia := [⟨"mk1", "photo", some "https://img"⟩]

/-! ## Helper lemmas -/

theorem dropLit_length {lit s r : List Char} (h : dropLit lit s = some r) :
    r.length + lit.length = s.length := by
  induction lit generalizing s with
  | nil =>
    simp only [dropLit, Option.some.injEq] at h
    simp [h]
  | cons a as ih =>
    cases s with
    | nil => simp [dropLit] at h
    | cons b bs =>
      simp only [dropLit] at h
      split at h
      · have := ih h
        simp only [List.length_cons]
        omega
      · exact absurd h (by simp)

theorem matchTco_length {s r : List Char} (h : matchTco s = some r) :
    r.length < s.length := by
  unfold matchTco at h
  cases hd : dropLit tcoLit s with
  | none => rw [hd] at h; exact absurd h (by simp)
  | some m =>
    rw [hd] at h
    have hm := dropLit_length hd
    cases m with
    | nil => exact absurd h (by simp)
    | cons c cs =>
      simp only at h
      split at h
      · simp only [Option.some.injEq] at h
        subst h
        have h1 : (List.dropWhile isWordChar cs).length ≤ cs.length :=
          (List.dropWhile_sublist isWordChar).length_le
        rename_i hw
        rw [List.dropWhile_cons, if_pos hw]
        simp only [List.length_cons, tcoLit] at hm ⊢
        simp only [String.toList] at hm
        omega
      · exact absurd h (by simp)

theorem removeTcoAux_length (n : Nat) (s : List Char) :
    (removeTcoAux n s).length ≤ s.length := by
  induction n generalizing s with
  | zero => simp [removeTcoAux]
  | succ n ih =>
    cases s with
    | nil => simp [removeTcoAux]
    | cons c cs =>
      simp only [removeTcoAux]
      cases hm : matchTco (c :: cs) with
      | some rest =>
        have h1 := matchTco_length hm
        have h2 := ih rest
        simp only [List.length_cons] at h1 ⊢
        omega
      | none =>
        simp only [List.length_cons]
        have := ih cs
        omega

theorem collapseWsAux_length (n : Nat) (s : List Char) :
    (collapseWsAux n s).length ≤ s.length := by
  induction n generalizing s with
  | zero => simp [collapseWsAux]
  | succ n ih =>
    cases s with
    | nil => simp [collapseWsAux]
    | cons c cs =>
      simp only [collapseWsAux]
      split
      · have h1 : (cs.dropWhile isWsChar).length ≤ cs.length :=
          (List.dropWhile_sublist isWsChar).length_le
        have h2 := ih (cs.dropWhile isWsChar)
        simp only [List.length_cons]
        omega
      · simp only [List.length_cons]
        have := ih cs
        omega

theorem trimWs_length (s : List Char) : (trimWs s).length ≤ s.length := by
  unfold trimWs
  have h1 : (s.dropWhile isWsChar).length ≤ s.length :=
    (List.dropWhile_sublist isWsChar).length_le
  have h2 : ((s.dropWhile isWsChar).reverse.dropWhile isWsChar).length
      ≤ (s.dropWhile isWsChar).reverse.length :=
    (List.dropWhile_sublist isWsChar).length_le
  simp only [List.length_reverse] at h2 ⊢
  omega

theorem cleanTextBasic_length (text : List Char) :
    (cleanTextBasic text).length ≤ text.length := by
  unfold cleanTextBasic collapseWs removeTco
  have h1 := removeTcoAux_length text.length text
  have h2 := collapseWsAux_length (removeTcoAux text.length text).length
    (removeTcoAux text.length text)
  have h3 := trimWs_length (collapseWsAux (removeTcoAux text.length text).length
    (removeTcoAux text.length text))
  omega

theorem saveCapped_eq_drop (K : Nat) (records : List α) (r : α) :
    saveCapped K records r = (records ++ [r]).drop (records.length + 1 - K) := by
  have hlen : (records ++ [r]).length = records.length + 1 := by simp
  show (if (records ++ [r]).length > K then
      (records ++ [r]).drop ((records ++ [r]).length - K)
    else (records ++ [r])) = (records ++ [r]).drop (records.length + 1 - K)
  split
  · rw [hlen]
  · rename_i h
    rw [hlen] at h
    have h0 : records.length + 1 - K = 0 := by omega
    simp [h0]

theorem saveCapped_length_le (K : Nat) (records : List α) (r : α) :
    (saveCapped K records r).length ≤ K := by
  rw [saveCapped_eq_drop]
  simp only [List.length_drop, List.length_append, List.length_singleton]
  omega

theorem self_mem_saveCapped (K : Nat) (hK : 1 ≤ K) (records : List α) (r : α) :
    r ∈ saveCapped K records r := by
  rw [saveCapped_eq_drop, List.drop_append_of_le_length (by omega)]
  exact List.mem_append_right _ (List.mem_singleton.mpr rfl)

theorem find?_eq_of_perm_filter_singleton {p : α → Bool} {l l' : List α} {a : α}
    (hperm : l'.Perm l) (h : l.filter p = [a]) : l'.find? p = some a := by
  have hp : (l'.filter p).Perm [a] := h ▸ hperm.filter p
  have he : l'.filter p = [a] := hp.eq_singleton
  calc l'.find? p = (l'.filter p).head? := (List.filter_head? p l').symm
    _ = some a := by rw [he]; rfl

theorem find?_eq_none_of_perm_filter_nil {p : α → Bool} {l l' : List α}
    (hperm : l'.Perm l) (h : l.filter p = []) : l'.find? p = none := by
  have hp : (l'.filter p).Perm [] := h ▸ hperm.filter p
  have he : l'.filter p = [] := hp.eq_nil
  calc l'.find? p = (l'.filter p).head? := (List.filter_head? p l').symm
    _ = none := by rw [he]; rfl

theorem savePostedTweet_eq_saveCapped (records : List PostedTweetRecord)
    (r : PostedTweetRecord) : savePostedTweet records r = saveCapped 1000 records r := rfl

theorem savePostedVideo_eq_saveCapped (records : List PostedVideoRecord)
    (r : PostedVideoRecord) : savePostedVideo records r = saveCapped 100 records r := rfl

theorem runFormatStrategies_cons_ok (dl : String → Except String VideoPaths)
    (f : String) (r : VideoPaths) (fs : List String) (hdl : dl f = .ok r) :
    runFormatStrategies dl (f :: fs) = (.ok r, [f]) := by
  rw [runFormatStrategies, hdl]

theorem runFormatStrategies_single_error (dl : String → Except String VideoPaths)
    (f e : String) (hdl : dl f = .error e) :
    runFormatStrategies dl [f] = (.error e, [f]) := by
  rw [runFormatStrategies, hdl]

theorem runFormatStrategies_cons_error (dl : String → Except String VideoPaths)
    (f e g : String) (gs : List String) (hdl : dl f = .error e) :
    runFormatStrategies dl (f :: g :: gs)
      = ((runFormatStrategies dl (g :: gs)).1, f :: (runFormatStrategies dl (g :: gs)).2) := by
  conv_lhs => rw [runFormatStrategies]
  rw [hdl]

theorem runFormatStrategies_trace (dl : String → Except String VideoPaths) :
    ∀ fs : List String, ∃ rest, (runFormatStrategies dl fs).2 ++ rest = fs := by
  intro fs
  induction fs with
  | nil => exact ⟨[], rfl⟩
  | cons f fs ih =>
    cases hdl : dl f with
    | ok r => exact ⟨fs, by rw [runFormatStrategies_cons_ok dl f r fs hdl]; rfl⟩
    | error e =>
      cases fs with
      | nil => exact ⟨[], by rw [runFormatStrategies_single_error dl f e hdl]; rfl⟩
      | cons g gs =>
        obtain ⟨rest, hrest⟩ := ih
        refine ⟨rest, ?_⟩
        rw [runFormatStrategies_cons_error dl f e g gs hdl]
        simpa using hrest

theorem runFormatStrategies_isOk (dl : String → Except String VideoPaths) :
    ∀ fs : List String,
      (runFormatStrategies dl fs).1.isOk = fs.any (fun f => (dl f).isOk) := by
  intro fs
  induction fs with
  | nil => rfl
  | cons f fs ih =>
    cases hdl : dl f with
    | ok r =>
      rw [runFormatStrategies_cons_ok dl f r fs hdl]
      simp [hdl, Except.isOk, Except.toBool]
    | error e =>
      cases fs with
      | nil =>
        rw [runFormatStrategies_single_error dl f e hdl]
        simp [hdl, Except.isOk, Except.toBool]
      | cons g gs =>
        rw [runFormatStrategies_cons_error dl f e g gs hdl]
        simp only [List.any_cons, hdl, Except.isOk, Except.toBool, Bool.false_or]
        exact ih

theorem selectImagePost_not_posted (ap : List String) (md : List TwitterMedia) :
    ∀ (ts : List TwitterPost) (t : TwitterPost) (u : String),
      selectImagePost ap md ts = some (t, u) → t.id ∉ ap := by
  intro ts
  induction ts with
  | nil => intro t u h; simp [selectImagePost] at h
  | cons x xs ih =>
    intro t u h
    rw [selectImagePost] at h
    by_cases h1 : x.id ∈ ap
    · rw [if_pos h1] at h; exact ih t u h
    · rw [if_neg h1] at h
      by_cases h2 : replyTargetOther x.text = true
      · rw [if_pos h2] at h; exact ih t u h
      · rw [if_neg h2] at h
        by_cases h3 : isRetweet x = true
        · rw [if_pos h3] at h; exact ih t u h
        · rw [if_neg h3] at h
          by_cases h4 : isQuoteTweet x = true
          · rw [if_pos h4] at h; exact ih t u h
          · rw [if_neg h4] at h
            cases hatt : x.attachments with
            | none => simp only [hatt] at h; exact ih t u h
            | some keys =>
              simp only [hatt] at h
              by_cases h5 : ((md.filter (fun m => m.media_key ∈ keys)).any
                  (fun m => m.type == "video" || m.type == "animated_gif")) = true
              · rw [if_pos h5] at h; exact ih t u h
              · rw [if_neg h5] at h
                cases hfind : (md.filter (fun m => m.media_key ∈ keys)).find?
                    (fun m => m.type == "photo") with
                | none => simp only [hfind] at h; exact ih t u h
                | some m =>
                  simp only [hfind] at h
                  cases hurl : m.url with
                  | none => simp only [hurl] at h; exact ih t u h
                  | some v =>
                    simp only [hurl] at h
                    by_cases h6 : v = ""
                    · rw [if_pos h6] at h; exact ih t u h
                    · rw [if_neg h6] at h
                      simp only [Option.some.injEq, Prod.mk.injEq] at h
                      obtain ⟨hteq, _⟩ := h
                      subst hteq
                      exact h1

/-! ## Claim theorems -/

/-- C2: after every record operation the persisted collection holds at most
K entries (K = 1000 for the tweet ledger, K = 100 for the video ledger);
the result is always the suffix of the pushed list obtained by dropping the
earliest-inserted entries (strict FIFO eviction); and with K = 3, inserting
4 distinct ids leaves the first-inserted id absent and the newest 3
present, in order. -/
theorem C2_store_capacity_fifo :
    (∀ (rs : List PostedTweetRecord) (r : PostedTweetRecord),
        savePostedTweet rs r = saveCapped 1000 rs r ∧
        (savePostedTweet rs r).length ≤ 1000 ∧
        savePostedTweet rs r = (rs ++ [r]).drop (rs.length + 1 - 1000))
    ∧ (∀ (rs : List PostedVideoRecord) (r : PostedVideoRecord),
        savePostedVideo rs r = saveCapped 100 rs r ∧
        (savePostedVideo rs r).length ≤ 100 ∧
        savePostedVideo rs r = (rs ++ [r]).drop (rs.length + 1 - 100))
    ∧ ((saveCapped 3 (saveCapped 3 (saveCapped 3 (saveCapped 3
          ([] : List PostedTweetRecord) ⟨"1", "", "", ""⟩) ⟨"2", "", "", ""⟩)
          ⟨"3", "", "", ""⟩) ⟨"4", "", "", ""⟩).map (fun r => r.tweetId)
        = ["2", "3", "4"])
    ∧ ("1" ∉ (saveCapped 3 (saveCapped 3 (saveCapped 3 (saveCapped 3
          ([] : List PostedTweetRecord) ⟨"1", "", "", ""⟩) ⟨"2", "", "", ""⟩)
          ⟨"3", "", "", ""⟩) ⟨"4", "", "", ""⟩).map (fun r => r.tweetId)) := by
  refine ⟨?_, ?_, by decide, by decide⟩
  · intro rs r
    refine ⟨rfl, ?_, ?_⟩
    · rw [savePostedTweet_eq_saveCapped]
      exact saveCapped_length_le 1000 rs r
    · rw [savePostedTweet_eq_saveCapped]
      exact saveCapped_eq_drop 1000 rs r
  · intro rs r
    refine ⟨rfl, ?_, ?_⟩
    · rw [savePostedVideo_eq_saveCapped]
      exact saveCapped_length_le 100 rs r
    · rw [savePostedVideo_eq_saveCapped]
      exact saveCapped_eq_drop 100 rs r

/-- C3 counterexample: the claim fails as stated.  On the exception path
the fallback of `"https://t.co/abc"` is the empty string, refuting the
promised non-emptiness; and on the empty-service-result path the code
returns the raw input (`output_text || content`), not the regex fallback
(shown on an input the regex fallback would change). -/
theorem C3_counterexample :
    cleanAndOptimizeContent (.error ()) ("https://t.co/abc".toList) = [] ∧
    ("https://t.co/abc".toList ≠ ([] : List Char)) ∧
    cleanAndOptimizeContent (.ok []) ("a  b".toList) = "a  b".toList ∧
    cleanTextBasic ("a  b".toList) = "a b".toList ∧
    "a  b".toList ≠ "a b".toList := by
  refine ⟨by decide, by decide, rfl, by decide, by decide⟩

/-- C3 amended: `normalize` is total and never raises; when the external
service throws it returns the deterministic regex fallback of the input;
when the service returns an empty result it returns the input unchanged;
and a non-empty service result is returned as-is.  (The result can be
empty when the cleaned input is empty.) -/
theorem C3_fallback_behaviour :
    ∀ (content out : List Char),
      cleanAndOptimizeContent (.error ()) content = cleanTextBasic content ∧
      cleanAndOptimizeContent (.ok out) content = (if out = [] then content else out) :=
  fun _ _ => ⟨rfl, rfl⟩

/-- C4 counterexample: the claim fails as stated.  The fallback performs no
truncation, so 251 non-space word characters pass through with length 251,
above the 250-character budget; and removing the matched occurrences of the
tracking-link pattern can splice surrounding text into a fresh occurrence,
so the output can still contain the pattern. -/
theorem C4_counterexample :
    (cleanTextBasic (List.replicate 251 'a')).length = 251 ∧
    250 < 251 ∧
    cleanTextBasic ("httpshttps://t.co/a://t.co/b".toList) = "https://t.co/b".toList ∧
    containsTco (cleanTextBasic ("httpshttps://t.co/a://t.co/b".toList)) = true := by
  refine ⟨by decide, by decide, by decide, by decide⟩

/-- C4 amended: the deterministic fallback path is monotonically
non-lengthening — for every input, the output of `cleanTextBasic` is never
longer than the input.  (No 250-character cap is enforced on this path, and
the tracking-link pattern can survive via splicing.) -/
theorem C4_fallback_non_lengthening :
    ∀ text : List Char, (cleanTextBasic text).length ≤ text.length :=
  cleanTextBasic_length

/-- C5: the download driver tries the format strategies strictly in
declared order — the invocation trace is always an initial segment of the
strategy list, whose entries are pairwise distinct, so the downloader runs
at most once per strategy; the overall outcome is a success exactly when
some strategy succeeds; in the claim's scenario (first two strategies fail,
third succeeds) the result originates from the third strategy and no later
strategy is invoked; and when every strategy fails the driver fails overall
having invoked each strategy exactly once. -/
theorem C5_strategy_order :
    (∀ dl : String → Except String VideoPaths,
        ∃ rest, (downloadShortVideo dl).2 ++ rest = formatStrategies)
    ∧ formatStrategies.Nodup
    ∧ (∀ dl : String → Except String VideoPaths,
        (downloadShortVideo dl).1.isOk = formatStrategies.any (fun f => (dl f).isOk))
    ∧ downloadShortVideo dlThirdOk
        = (.ok ⟨"v.mp4", "t.jpg"⟩,
           ["232+233-9/231+233-9/230+233-9", "232+233/231+233/230+233", "best[height<=720]"])
    ∧ downloadShortVideo dlFail = (.error "boom", formatStrategies) := by
  refine ⟨?_, by decide, ?_, rfl, rfl⟩
  · intro dl
    exact runFormatStrategies_trace dl formatStrategies
  · intro dl
    exact runFormatStrategies_isOk dl formatStrategies

/-- C6 counterexample: the claim fails as stated.  The store does not
deduplicate: recording an entry whose id is already present leaves two
records carrying that id. -/
theorem C6_counterexample :
    ((savePostedTweet [⟨"x", "n", "z", "t"⟩] ⟨"x", "n", "z", "t"⟩).map
        (fun r => r.tweetId)).count "x" = 2 := by
  decide

/-- C6 amended: `record` appends unconditionally without checking for an
existing record: below capacity, the number of records carrying the new
entry's id always grows by exactly one, so an id already present appears
twice.  Uniqueness is maintained only by the callers, which skip
already-processed ids before minting. -/
theorem C6_record_appends_duplicate (rs : List PostedTweetRecord) (r : PostedTweetRecord)
    (h : rs.length < 1000) :
    ((savePostedTweet rs r).map (fun x => x.tweetId)).count r.tweetId
      = ((rs.map (fun x => x.tweetId)).count r.tweetId) + 1 := by
  rw [savePostedTweet_eq_saveCapped, saveCapped_eq_drop]
  have h0 : rs.length + 1 - 1000 = 0 := by omega
  rw [h0, List.drop_zero, List.map_append, List.count_append]
  simp

/-- C6 witness: the amended theorem applied at a store already holding the
recorded id. -/
theorem C6_witness :
    ((savePostedTweet [⟨"x", "n", "z", "t"⟩] ⟨"x", "n", "z", "t"⟩).map
        (fun x => x.tweetId)).count (PostedTweetRecord.tweetId ⟨"x", "n", "z", "t"⟩)
      = (([(⟨"x", "n", "z", "t"⟩ : PostedTweetRecord)].map (fun x => x.tweetId)).count
          (PostedTweetRecord.tweetId ⟨"x", "n", "z", "t"⟩)) + 1 :=
  C6_record_appends_duplicate [⟨"x", "n", "z", "t"⟩] ⟨"x", "n", "z", "t"⟩ (by decide)

/-- C7: for a candidate that is a thread member whose conversation has at
least two items in the fetch window, the final `firstTweetId` equals the
id of the true root — the unique item of the conversation's window slice
with no `replied_to` reference, whose id is its conversation id — when it
is in the window, and equals the candidate's conversation id when no such
item is in the window. -/
theorem C7_root_attribution (tweet : TwitterPost) (window : List TwitterPost)
    (root : TwitterPost) (hthread : isPartOfThread tweet = true)
    (hlen : 2 ≤ (getThreadFromTimeline tweet.conversation_id window).length) :
    (((getThreadFromTimeline tweet.conversation_id window).filter
          (fun x => !hasRepliedTo x) = [root]) →
      root.id = root.conversation_id →
      computeFirstTweetId tweet window = root.id)
    ∧ (((getThreadFromTimeline tweet.conversation_id window).filter
          (fun x => !hasRepliedTo x) = []) →
      computeFirstTweetId tweet window = tweet.conversation_id) := by
  have hsort : (sortThreadChronologically
      (getThreadFromTimeline tweet.conversation_id window)).Perm
      (getThreadFromTimeline tweet.conversation_id window) :=
    List.mergeSort_perm _ _
  constructor
  · intro hfilter hrootid
    have hroot_mem : root ∈ getThreadFromTimeline tweet.conversation_id window :=
      List.mem_of_mem_filter (hfilter ▸ List.mem_singleton.mpr rfl)
    have hconv : root.conversation_id = tweet.conversation_id := by
      have := List.of_mem_filter hroot_mem
      simpa [getThreadFromTimeline] using this
    have hfind : findFirstTweet (sortThreadChronologically
        (getThreadFromTimeline tweet.conversation_id window)) = some root :=
      find?_eq_of_perm_filter_singleton hsort hfilter
    unfold computeFirstTweetId
    rw [hthread]
    simp only [Bool.not_true, Bool.false_eq_true, if_false]
    rw [if_neg (by omega), hfind]
    show (if root.id = "" then tweet.conversation_id else root.id) = root.id
    by_cases hid : root.id = ""
    · rw [if_pos hid, ← hconv, ← hrootid]
    · rw [if_neg hid]
  · intro hfilter
    have hfind : findFirstTweet (sortThreadChronologically
        (getThreadFromTimeline tweet.conversation_id window)) = none :=
      find?_eq_none_of_perm_filter_nil hsort hfilter
    unfold computeFirstTweetId
    rw [hthread]
    simp only [Bool.not_true, Bool.false_eq_true, if_false]
    rw [if_neg (by omega), hfind]

/-- C7 witness: a three-tweet thread with the root in the window resolves
to the root's id, and the same candidate with the root outside the window
falls back to the conversation id. -/
theorem C7_witness :
    computeFirstTweetId midTweet threadWindow = "C" ∧
    computeFirstTweetId midTweet partialWindow = "C" := by
  constructor
  · exact (C7_root_attribution midTweet threadWindow rootTweet (by decide)
      (by decide)).1 (by decide) (by decide)
  · exact (C7_root_attribution midTweet partialWindow rootTweet (by decide)
      (by decide)).2 (by decide)

/-- C8: in latest mode a candidate already present in the dedup store is
never downloaded and never minted — the video run aborts with exit code 1,
an unchanged ledger, no downloader invocation and no mint attempt; the
tweet selection loop never returns an already-posted candidate (so the
mint, which only ever runs on the selected candidate, is never invoked for
one); and when the only available tweet candidate is already processed the
tweet run fails with exit code 1, no mint attempt and an unchanged
ledger. -/
theorem C8_latest_mode_skips_processed :
    (∀ (ledger : List PostedVideoRecord) (fetched : YouTubeVideo)
        (dl : String → Except String VideoPaths) (sOk : Bool)
        (mres : Except String String) (wOk : Bool) (pA : String),
        fetched.id ∈ ledger.map (fun r => r.videoId) →
        runVideoMain none ledger fetched true dl sOk mres wOk pA
          = ⟨1, ledger, [], false, []⟩)
    ∧ (∀ (ap : List String) (md : List TwitterMedia) (ts : List TwitterPost)
        (t : TwitterPost) (u : String),
        selectImagePost ap md ts = some (t, u) → t.id ∉ ap)
    ∧ (∀ (ledger : List PostedTweetRecord) (t : TwitterPost)
        (md : List TwitterMedia) (mres : Except String String) (wOk : Bool)
        (pA : String),
        t.id ∈ ledger.map (fun r => r.tweetId) →
        runTweetMain ledger true [t] md mres wOk pA = ⟨1, ledger, false⟩) := by
  refine ⟨?_, selectImagePost_not_posted, ?_⟩
  · intro ledger fetched dl sOk mres wOk pA hmem
    simp [runVideoMain, hmem]
  · intro ledger t md mres wOk pA hmem
    simp [runTweetMain, selectImagePost, hmem]

/-- C8 witness: the dedup-abort conclusions at concrete stores holding the
candidate, and the selection conclusion at a concrete timeline. -/
theorem C8_witness :
    runVideoMain none [⟨"vid1", "n", "z", "t"⟩] sampleVideo true dlAlwaysOk true
        (.ok "0x") true "now" = ⟨1, [⟨"vid1", "n", "z", "t"⟩], [], false, []⟩ ∧
    photoTweet.id ∉ ["other"] ∧
    runTweetMain [⟨"tw1", "n", "z", "t"⟩] true [photoTweet] photoMedia (.ok "0x")
        true "now" = ⟨1, [⟨"tw1", "n", "z", "t"⟩], false⟩ := by
  refine ⟨?_, ?_, ?_⟩
  · exact C8_latest_mode_skips_processed.1 [⟨"vid1", "n", "z", "t"⟩] sampleVideo
      dlAlwaysOk true (.ok "0x") true "now" (by decide)
  · exact C8_latest_mode_skips_processed.2.1 ["other"] photoMedia [photoTweet]
      photoTweet "https://img" (by decide)
  · exact C8_latest_mode_skips_processed.2.2 [⟨"tw1", "n", "z", "t"⟩] photoTweet
      photoMedia (.ok "0x") true "now" (by decide)

/-- C1 counterexample: the claim fails as stated.  In the video pipeline's
targeted (specific-video) mode a confirmed mint — the hand-off is reached
and the run completes with exit code 0 — deliberately skips the dedup save,
so the processed item's id is never recorded in the ledger. -/
theorem C1_counterexample :
    (runVideoMain (some "abc") [] sampleVideo true dlAlwaysOk true (.ok "0xtx")
        true "now").exitCode = 0 ∧
    (runVideoMain (some "abc") [] sampleVideo true dlAlwaysOk true (.ok "0xtx")
        true "now").mintAttempted = true ∧
    (runVideoMain (some "abc") [] sampleVideo true dlAlwaysOk true (.ok "0xtx")
        true "now").ledger = [] :=
  ⟨rfl, rfl, rfl⟩

/-- C1 amended: on a minting failure no record is ever written and the run
exits non-zero, in both pipelines and every mode; after a confirmed mint
(exit code 0) with a successful ledger write, the processed item's id is
recorded in latest mode of the video pipeline and in the tweet pipeline —
but the video pipeline's targeted mode intentionally skips the dedup
save. -/
theorem C1_record_iff_mint :
    (∀ (mode : Option String) (ledger : List PostedVideoRecord) (fetched : YouTubeVideo)
        (fOk : Bool) (dl : String → Except String VideoPaths) (sOk : Bool) (e : String)
        (wOk : Bool) (pA : String),
        (runVideoMain mode ledger fetched fOk dl sOk (.error e) wOk pA).exitCode = 1 ∧
        (runVideoMain mode ledger fetched fOk dl sOk (.error e) wOk pA).ledger = ledger)
    ∧ (∀ (ledger : List PostedTweetRecord) (fOk : Bool) (ts : List TwitterPost)
        (md : List TwitterMedia) (e : String) (wOk : Bool) (pA : String),
        (runTweetMain ledger fOk ts md (.error e) wOk pA).exitCode = 1 ∧
        (runTweetMain ledger fOk ts md (.error e) wOk pA).ledger = ledger)
    ∧ (∀ (ledger : List PostedVideoRecord) (fetched : YouTubeVideo)
        (dl : String → Except String VideoPaths) (sOk : Bool) (tx : String) (pA : String),
        (runVideoMain none ledger fetched true dl sOk (.ok tx) true pA).exitCode = 0 →
        fetched.id ∈ (runVideoMain none ledger fetched true dl sOk (.ok tx)
          true pA).ledger.map (fun r => r.videoId))
    ∧ (∀ (ledger : List PostedTweetRecord) (ts : List TwitterPost)
        (md : List TwitterMedia) (tx : String) (pA : String),
        (runTweetMain ledger true ts md (.ok tx) true pA).exitCode = 0 →
        ∃ (p : TwitterPost) (u : String),
          selectImagePost (ledger.map (fun r => r.tweetId)) md ts = some (p, u) ∧
          p.id ∈ (runTweetMain ledger true ts md (.ok tx) true pA).ledger.map
            (fun r => r.tweetId)) := by
  refine ⟨?_, ?_, ?_, ?_⟩
  · intro mode ledger fetched fOk dl sOk e wOk pA
    cases fOk with
    | false => exact ⟨rfl, rfl⟩
    | true =>
      cases hdl : downloadShortVideo dl with
      | mk res tried =>
        cases mode with
        | some vid =>
          cases res with
          | error err => refine ⟨?_, ?_⟩ <;> simp [runVideoMain, hdl]
          | ok paths =>
            cases sOk <;> refine ⟨?_, ?_⟩ <;>
              simp [runVideoMain, hdl, createZoraCoinWithVideo]
        | none =>
          by_cases hmem : fetched.id ∈ ledger.map (fun r => r.videoId)
          · refine ⟨?_, ?_⟩ <;> simp [runVideoMain, hmem]
          · cases res with
            | error err => refine ⟨?_, ?_⟩ <;> simp [runVideoMain, hmem, hdl]
            | ok paths =>
              cases sOk <;> refine ⟨?_, ?_⟩ <;>
                simp [runVideoMain, hmem, hdl, createZoraCoinWithVideo]
  · intro ledger fOk ts md e wOk pA
    cases fOk with
    | false => exact ⟨rfl, rfl⟩
    | true =>
      cases hsel : selectImagePost (ledger.map (fun r => r.tweetId)) md ts with
      | none => refine ⟨?_, ?_⟩ <;> simp [runTweetMain, hsel]
      | some pu =>
        obtain ⟨p, u⟩ := pu
        refine ⟨?_, ?_⟩ <;> simp [runTweetMain, hsel]
  · intro ledger fetched dl sOk tx pA h
    by_cases hmem : fetched.id ∈ ledger.map (fun r => r.videoId)
    · exfalso
      simp [runVideoMain, hmem] at h
    · cases hdl : downloadShortVideo dl with
      | mk res tried =>
        cases res with
        | error err =>
          exfalso
          simp [runVideoMain, hmem, hdl] at h
        | ok paths =>
          cases sOk with
          | false =>
            exfalso
            simp [runVideoMain, hmem, hdl, createZoraCoinWithVideo] at h
          | true =>
            have hrec : (⟨fetched.id, fetched.title, tx, pA⟩ : PostedVideoRecord)
                ∈ savePostedVideo ledger ⟨fetched.id, fetched.title, tx, pA⟩ := by
              rw [savePostedVideo_eq_saveCapped]
              exact self_mem_saveCapped 100 (by omega) ledger _
            simp [runVideoMain, hmem, hdl, createZoraCoinWithVideo]
            exact ⟨_, hrec, rfl⟩
  · intro ledger ts md tx pA h
    cases hsel : selectImagePost (ledger.map (fun r => r.tweetId)) md ts with
    | none =>
      exfalso
      simp [runTweetMain, hsel] at h
    | some pu =>
      obtain ⟨p, u⟩ := pu
      refine ⟨p, u, rfl, ?_⟩
      have hrec : (⟨p.id, "tokenmetrics#" ++ lastSix p.id, tx, pA⟩ : PostedTweetRecord)
          ∈ savePostedTweet ledger ⟨p.id, "tokenmetrics#" ++ lastSix p.id, tx, pA⟩ := by
        rw [savePostedTweet_eq_saveCapped]
        exact self_mem_saveCapped 1000 (by omega) ledger _
      simp [runTweetMain, hsel]
      exact ⟨_, hrec, rfl⟩

/-- C1 witness: the amended conclusions at concrete runs — a failed mint in
both pipelines leaves the ledger untouched with exit code 1, and a
successful latest-mode mint with a successful write records the id. -/
theorem C1_witness :
    ((runVideoMain none [] sampleVideo true dlAlwaysOk true (.error "mint fail")
        true "now").exitCode = 1
      ∧ (runVideoMain none [] sampleVideo true dlAlwaysOk true (.error "mint fail")
        true "now").ledger = [])
    ∧ ((runTweetMain [] true [photoTweet] photoMedia (.error "mint fail")
        true "now").exitCode = 1
      ∧ (runTweetMain [] true [photoTweet] photoMedia (.error "mint fail")
        true "now").ledger = [])
    ∧ sampleVideo.id ∈ ((runVideoMain none [] sampleVideo true dlAlwaysOk true
        (.ok "0x") true "now").ledger.map (fun r => r.videoId))
    ∧ (∃ (p : TwitterPost) (u : String),
        selectImagePost (([] : List PostedTweetRecord).map (fun r => r.tweetId))
            photoMedia [photoTweet] = some (p, u)
          ∧ p.id ∈ ((runTweetMain [] true [photoTweet] photoMedia (.ok "0x")
              true "now").ledger.map (fun r => r.tweetId))) :=
  ⟨C1_record_iff_mint.1 none [] sampleVideo true dlAlwaysOk true "mint fail" true "now",
   C1_record_iff_mint.2.1 [] true [photoTweet] photoMedia "mint fail" true "now",
   C1_record_iff_mint.2.2.1 [] sampleVideo dlAlwaysOk true "0x" "now" (by decide),
   C1_record_iff_mint.2.2.2 [] [photoTweet] photoMedia "0x" "now" (by decide)⟩

/-- C9 counterexample: the claim fails as stated.  A run can reach the
minting hand-off and abort fatally without either acquired file being
deleted: the hand-off's setup phase (environment reads, key parsing and
client construction, lines 349-369 of the source, before the `try` at line
371) throws outside the `try`/`finally`, so the `finally` cleanup never
runs, the run exits non-zero, and the acquired files survive. -/
theorem C9_counterexample :
    createZoraCoinWithVideo false (.ok "0xtx") "v.mp4" "t.jpg"
        = (.error "setup failure before try block", []) ∧
    (runVideoMain none [] sampleVideo true dlAlwaysOk false (.ok "0xtx")
        true "now").mintAttempted = true ∧
    (runVideoMain none [] sampleVideo true dlAlwaysOk false (.ok "0xtx")
        true "now").exitCode = 1 ∧
    (runVideoMain none [] sampleVideo true dlAlwaysOk false (.ok "0xtx")
        true "now").filesDeleted = ([] : List String) :=
  ⟨rfl, rfl, rfl, rfl⟩

/-- C9 amended: once the hand-off's `try` block is entered (the setup phase
before the `try` does not throw), deletion of both acquired files is
attempted on every exit path — whether the mint succeeds or throws; a
setup-phase failure, or a fatal abort before the hand-off, deletes
nothing. -/
theorem C9_cleanup_inside_try :
    (∀ (mres : Except String String) (v t : String),
        createZoraCoinWithVideo true mres v t = (mres, [v, t]))
    ∧ (∀ (mode : Option String) (ledger : List PostedVideoRecord)
        (fetched : YouTubeVideo) (fOk : Bool) (dl : String → Except String VideoPaths)
        (mres : Except String String) (wOk : Bool) (pA : String),
        (runVideoMain mode ledger fetched fOk dl true mres wOk pA).mintAttempted = true →
        ∃ p : VideoPaths, (downloadShortVideo dl).1 = .ok p ∧
          (runVideoMain mode ledger fetched fOk dl true mres wOk pA).filesDeleted
            = [p.videoPath, p.thumbnailPath]) := by
  refine ⟨fun _ _ _ => rfl, ?_⟩
  intro mode ledger fetched fOk dl mres wOk pA h
  cases fOk with
  | false => exact absurd h (by simp [runVideoMain])
  | true =>
    cases hdl : downloadShortVideo dl with
    | mk res tried =>
      cases res with
      | error err =>
        exfalso
        cases mode with
        | some vid => simp [runVideoMain, hdl] at h
        | none =>
          by_cases hmem : fetched.id ∈ ledger.map (fun r => r.videoId)
          · simp [runVideoMain, hmem, hdl] at h
          · simp [runVideoMain, hmem, hdl] at h
      | ok paths =>
        refine ⟨paths, rfl, ?_⟩
        cases mode with
        | some vid =>
          cases mres with
          | error e => simp [runVideoMain, hdl, createZoraCoinWithVideo]
          | ok tx => simp [runVideoMain, hdl, createZoraCoinWithVideo]
        | none =>
          by_cases hmem : fetched.id ∈ ledger.map (fun r => r.videoId)
          · exfalso
            simp [runVideoMain, hmem, hdl] at h
          · cases mres with
            | error e => simp [runVideoMain, hmem, hdl, createZoraCoinWithVideo]
            | ok tx => simp [runVideoMain, hmem, hdl, createZoraCoinWithVideo]

/-- C9 witness: the amended theorem applied at a concrete run whose mint
throws inside the `try` block — both files are still deleted. -/
theorem C9_witness :
    ∃ p : VideoPaths, (downloadShortVideo dlAlwaysOk).1 = .ok p ∧
      (runVideoMain none [] sampleVideo true dlAlwaysOk true (.error "mint fail")
        true "now").filesDeleted = [p.videoPath, p.thumbnailPath] :=
  C9_cleanup_inside_try.2 none [] sampleVideo true dlAlwaysOk (.error "mint fail")
    true "now" (by decide)

/-- C10: the dedup record operation never aborts the run — a
persistence-layer failure (modelled by a failing write) leaves the
persisted ledger unchanged while the run's exit code is identical to that
of the same run with a successful write, in both pipelines; in particular a
run can mint successfully, exit 0, and still leave the item's id absent
from the ledger. -/
theorem C10_record_never_throws :
    (∀ (mode : Option String) (ledger : List PostedVideoRecord)
        (fetched : YouTubeVideo) (fOk : Bool) (dl : String → Except String VideoPaths)
        (sOk : Bool) (mres : Except String String) (pA : String),
        (runVideoMain mode ledger fetched fOk dl sOk mres false pA).ledger = ledger ∧
        (runVideoMain mode ledger fetched fOk dl sOk mres false pA).exitCode
          = (runVideoMain mode ledger fetched fOk dl sOk mres true pA).exitCode)
    ∧ (∀ (ledger : List PostedTweetRecord) (fOk : Bool) (ts : List TwitterPost)
        (md : List TwitterMedia) (mres : Except String String) (pA : String),
        (runTweetMain ledger fOk ts md mres false pA).ledger = ledger ∧
        (runTweetMain ledger fOk ts md mres false pA).exitCode
          = (runTweetMain ledger fOk ts md mres true pA).exitCode)
    ∧ ((runVideoMain none [] sampleVideo true dlAlwaysOk true (.ok "0xtx")
          false "now").exitCode = 0
        ∧ (runVideoMain none [] sampleVideo true dlAlwaysOk true (.ok "0xtx")
          false "now").mintAttempted = true
        ∧ (runVideoMain none [] sampleVideo true dlAlwaysOk true (.ok "0xtx")
          false "now").ledger = []) := by
  refine ⟨?_, ?_, ⟨rfl, rfl, rfl⟩⟩
  · intro mode ledger fetched fOk dl sOk mres pA
    cases fOk with
    | false => exact ⟨rfl, rfl⟩
    | true =>
      cases hdl : downloadShortVideo dl with
      | mk res tried =>
        cases mode with
        | some vid =>
          cases res with
          | error e => refine ⟨?_, ?_⟩ <;> simp [runVideoMain, hdl]
          | ok paths =>
            cases sOk <;> cases mres <;> refine ⟨?_, ?_⟩ <;>
              simp [runVideoMain, hdl, createZoraCoinWithVideo]
        | none =>
          by_cases hmem : fetched.id ∈ ledger.map (fun r => r.videoId)
          · refine ⟨?_, ?_⟩ <;> simp [runVideoMain, hmem]
          · cases res with
            | error e => refine ⟨?_, ?_⟩ <;> simp [runVideoMain, hmem, hdl]
            | ok paths =>
              cases sOk <;> cases mres <;> refine ⟨?_, ?_⟩ <;>
                simp [runVideoMain, hmem, hdl, createZoraCoinWithVideo]
  · intro ledger fOk ts md mres pA
    cases fOk with
    | false => exact ⟨rfl, rfl⟩
    | true =>
      cases hsel : selectImagePost (ledger.map (fun r => r.tweetId)) md ts with
      | none => refine ⟨?_, ?_⟩ <;> simp [runTweetMain, hsel]
      | some pu =>
        obtain ⟨p, u⟩ := pu
        cases mres with
        | error e => refine ⟨?_, ?_⟩ <;> simp [runTweetMain, hsel]
        | ok tx => refine ⟨?_, ?_⟩ <;> simp [runTweetMain, hsel]

end TmZora
